import Mathlib

/-!
Verification of the homebridge-nextdns plugin (TypeScript sources
`src/platform.ts` and `src/blockedDomainAccessory.ts`) against its
natural-language specification.

The embedding is shallow: each TypeScript routine becomes a total Lean
function over explicit state.  Effects of the JavaScript runtime are made
explicit:
 * the outcome of an HTTP `fetch` (network rejection, non-ok response,
   `json()` throwing, or a good payload) is an input to the function that
   performs the fetch;
 * the HTTP requests a routine issues and the log lines it emits are part
   of its result;
 * the mutable `Map`s of the platform (`accessories`,
   `BlockedDomainAccessories`) are association lists with JavaScript
   `Map.set`/`Map.get` semantics;
 * `hap.uuid.generate` is a deterministic function of its input string, so
   it is represented by that (injective) input string itself.
-/

namespace NextDNS

/-- Remote denylist record: `{ id: string; active: boolean }`. -/
structure DenylistEntry where
  id : String
  active : Bool
deriving Repr, DecidableEq

/-- Payload of a successful profile fetch: `json.data` with its `denylist`. -/
structure ProfileData where
  denylist : List DenylistEntry
deriving Repr, DecidableEq

/-- Outcome of one HTTP round trip as observed by the JavaScript runtime. -/
inductive FetchOutcome where
  /-- The `fetch` promise rejects (network failure). -/
  | networkError
  /-- A response arrives with `response.ok = false`; carries `statusText`. -/
  | httpError (statusText : String)
  /-- `response.ok` but `response.json()` throws (malformed payload). -/
  | malformedPayload
  /-- A well-formed `{ data: { denylist: [...] } }` payload. -/
  | ok (data : ProfileData)
deriving Repr, DecidableEq

/-- Log severities used by the plugin. -/
inductive LogLevel where
  | debug
  | warn
deriving Repr, DecidableEq

/-- One emitted log line. -/
structure LogEntry where
  level : LogLevel
  message : String
deriving Repr, DecidableEq

/-- Embedding of `getNextDNSProfileData` (platform.ts lines 24-55): returns
`json.data` on success and `null` (here `none`) after logging a warning on
every failure mode; the `try`/`catch` folds network errors and `json()`
failures into the same `null` result. -/
def getNextDNSProfileData (outcome : FetchOutcome) :
    Option ProfileData × List LogEntry :=
  match outcome with
  | .networkError =>
      (none, [⟨.warn, "Failed to fetch profile. Ensure the API key and profile ID are correct and the network is reachable."⟩])
  | .httpError statusText =>
      (none, [⟨.warn, "Failed to fetch profile: " ++ statusText⟩])
  | .malformedPayload =>
      (none, [⟨.warn, "Failed to fetch profile. Ensure the API key and profile ID are correct and the network is reachable."⟩])
  | .ok data => (some data, [])

/-- Embedding of `getUUID` (platform.ts lines 13-15): `hap.uuid.generate` is a
deterministic hash of its input, represented here by the input string
`next-dns-blocked-domain:<domain>` itself. -/
def getUUID (domain : String) : String :=
  "next-dns-blocked-domain:" ++ domain

/-- Host-visible platform accessory as the sync loop sees it: whether
`getService(Switch)` finds a service, and the `On` characteristic's value. -/
structure Accessory where
  hasSwitch : Bool
  charOn : Bool
deriving Repr, DecidableEq

/-- JavaScript `Map.get`: the value stored under a key, if any. -/
def alistGet (k : String) : List (String × α) → Option α
  | [] => none
  | (k₂, v) :: rest => if k₂ = k then some v else alistGet k rest

/-- JavaScript `Map.set`: replace the value under an existing key, else
append a new binding. -/
def alistSet (k : String) (v : α) : List (String × α) → List (String × α)
  | [] => [(k, v)]
  | (k₂, v₂) :: rest =>
      if k₂ = k then (k, v) :: rest else (k₂, v₂) :: alistSet k v rest

/-- Mutable state of `NextDNSPlatform` that the sync loop touches: the
`accessories` map (uuid to host accessory) and the
`BlockedDomainAccessories` map (uuid to that handler's `isOn` boolean). -/
structure PlatformState where
  accessories : List (String × Accessory)
  blockedDomainAccessories : List (String × Bool)
deriving Repr, DecidableEq

/-- Embedding of the first half of the `forEach` body in `syncConfig`
(platform.ts lines 217-235): look the accessory up by uuid, and when it has
a `Switch` service whose `On` value differs from `active`, update the
characteristic. -/
def updateChar (st : PlatformState) (e : DenylistEntry) : PlatformState :=
  match alistGet (getUUID e.id) st.accessories with
  | some acc =>
      if acc.hasSwitch && acc.charOn != e.active then
        { st with accessories :=
            alistSet (getUUID e.id) { acc with charOn := e.active } st.accessories }
      else st
  | none => st

/-- Embedding of the leftover `this.accessories.get('adf')` lookup inside
`syncConfig` (platform.ts lines 242-248): if an accessory is stored under the
literal key `adf` and has a `Switch` service, its `On` characteristic is set
to `active`. -/
def adfTouch (st : PlatformState) (e : DenylistEntry) : PlatformState :=
  match alistGet "adf" st.accessories with
  | some acc =>
      if acc.hasSwitch then
        { st with accessories :=
            alistSet "adf" { acc with charOn := e.active } st.accessories }
      else st
  | none => st

/-- Embedding of the whole `forEach` body in `syncConfig` (platform.ts lines
216-251) for one denylist entry: characteristic update, then, when a
`BlockedDomainAccessory` is registered under the uuid, the `adf` leftover
update followed by `blockedDomainAccessory.isOn = blockedDomain.active`. -/
def applyEntry (st : PlatformState) (e : DenylistEntry) : PlatformState :=
  let st₁ := updateChar st e
  match alistGet (getUUID e.id) st₁.blockedDomainAccessories with
  | some _ =>
      let st₂ := adfTouch st₁ e
      { st₂ with blockedDomainAccessories :=
          alistSet (getUUID e.id) e.active st₂.blockedDomainAccessories }
  | none => st₁

/-- HTTP methods the plugin uses. -/
inductive HttpMethod where
  | get
  | patch
  | post
deriving Repr, DecidableEq

/-- Request bodies the plugin sends (after `JSON.stringify`). -/
inductive ReqBody where
  | noBody
  /-- Body of a denylist PATCH: `\x7b active \x7d`. -/
  | activeFlag (active : Bool)
  /-- Body of the denylist POST: `\x7b id, active \x7d`. -/
  | newEntry (id : String) (active : Bool)
deriving Repr, DecidableEq

/-- One HTTP request issued by the plugin. -/
structure Request where
  method : HttpMethod
  url : String
  body : ReqBody
deriving Repr, DecidableEq

/-- The authenticated profile read: `GET https://api.nextdns.io/profiles/<id>`. -/
def profileGetReq (profileId : String) : Request :=
  { method := .get
    url := "https://api.nextdns.io/profiles/" ++ profileId
    body := .noBody }

/-- Result of one `syncConfig` tick: the platform state afterwards, the
requests issued, the log lines emitted, and the `setTimeout` delay used to
schedule the next tick (`none` would mean no reschedule). -/
structure TickResult where
  state : PlatformState
  requests : List Request
  logs : List LogEntry
  nextDelayMs : Option Nat
deriving Repr

/-- Embedding of one execution of `syncConfig` (platform.ts lines 206-260):
fetch the profile, on success fold the `forEach` body over the denylist, and
unconditionally `setTimeout(syncConfig, 60000)`.  The function is total: the
surrounding `try`/`catch` means no exception escapes the tick. -/
def syncTick (profileId : String) (outcome : FetchOutcome)
    (st : PlatformState) : TickResult :=
  let fetched := getNextDNSProfileData outcome
  let st₂ :=
    match fetched.1 with
    | some data => data.denylist.foldl applyEntry st
    | none => st
  { state := st₂
    requests := [profileGetReq profileId]
    logs := ⟨.debug, "syncConfig called"⟩ :: fetched.2
    nextDelayMs := some 60000 }

/-- Reading of one switch by the host, through the platform state: the
`BlockedDomainAccessory.getOn` handler returns the stored `isOn` boolean of
the accessory registered under the domain's uuid. -/
def switchGet (st : PlatformState) (domain : String) : Option Bool :=
  alistGet (getUUID domain) st.blockedDomainAccessories

/-- Outcome of a single mutation HTTP call, as the `try`/`catch` sees it. -/
inductive CallResult where
  /-- The `fetch` promise rejects. -/
  | throws
  /-- Response received with `response.ok = true`. -/
  | respOk
  /-- Response received with `response.ok = false`. -/
  | respNotOk
deriving Repr, DecidableEq

/-- The PATCH request of `blockDomain`/`unblockDomain`:
`PATCH https://api.nextdns.io/profiles/<pid>/denylist/<domain>`. -/
def patchReq (profileId domain : String) (active : Bool) : Request :=
  { method := .patch
    url := "https://api.nextdns.io/profiles/" ++ profileId ++ "/denylist/" ++ domain
    body := .activeFlag active }

/-- The fallback POST of `blockDomain`:
`POST https://api.nextdns.io/profiles/<pid>/denylist`. -/
def createReq (profileId domain : String) : Request :=
  { method := .post
    url := "https://api.nextdns.io/profiles/" ++ profileId ++ "/denylist"
    body := .newEntry domain true }

/-- Embedding of `blockDomain` (platform.ts lines 262-298): PATCH
`active=true`; only when a response arrives and is not ok, issue the one
fallback POST creating the entry; every failure is caught and logged. -/
def blockDomain (profileId domain : String)
    (patchResult postResult : CallResult) : List Request × List LogEntry :=
  match patchResult with
  | .throws => ([patchReq profileId domain true], [⟨.warn, "Failed to block domain:"⟩])
  | .respOk => ([patchReq profileId domain true], [])
  | .respNotOk =>
      match postResult with
      | .throws =>
          ([patchReq profileId domain true, createReq profileId domain],
           [⟨.warn, "Failed to block domain:"⟩])
      | _ => ([patchReq profileId domain true, createReq profileId domain], [])

/-- Embedding of `unblockDomain` (platform.ts lines 300-318): a single PATCH
`active=false`, no fallback of any kind; every failure is caught and
logged. -/
def unblockDomain (profileId domain : String)
    (patchResult : CallResult) : List Request × List LogEntry :=
  match patchResult with
  | .throws => ([patchReq profileId domain false], [⟨.warn, "Failed to unblock domain:"⟩])
  | _ => ([patchReq profileId domain false], [])

/-- Local state of one `BlockedDomainAccessory` handler. -/
structure SwitchAcc where
  domain : String
  isOn : Bool
deriving Repr, DecidableEq

/-- The fire-and-forget mutator call `setOn` makes. -/
inductive MutCall where
  | block (domain : String)
  | unblock (domain : String)
deriving Repr, DecidableEq

/-- Embedding of `BlockedDomainAccessory.setOn` (blockedDomainAccessory.ts
lines 101-110): store the value into `isOn` first, then invoke
`blockDomain`/`unblockDomain` without awaiting it. -/
def setOn (acc : SwitchAcc) (value : Bool) : SwitchAcc × MutCall :=
  let acc₂ := { acc with isOn := value }
  (acc₂, if acc₂.isOn then .block acc.domain else .unblock acc.domain)

/-- Embedding of `BlockedDomainAccessory.getOn` (blockedDomainAccessory.ts
lines 127-129): return the cached boolean, no network call. -/
def getOn (acc : SwitchAcc) : Bool :=
  acc.isOn

/-- Composition of `setOn` with the eventual completion of the mutator it
fired: the caller-visible accessory state together with the requests and
logs the background call produces under the given remote outcomes.  `setOn`
itself never awaits the mutator, so the first component is what the caller
observes. -/
def setOnObserved (profileId : String) (acc : SwitchAcc) (value : Bool)
    (patchResult postResult : CallResult) :
    SwitchAcc × List Request × List LogEntry :=
  let r := setOn acc value
  let eff :=
    match r.2 with
    | .block d => blockDomain profileId d patchResult postResult
    | .unblock d => unblockDomain profileId d patchResult
  (r.1, eff.1, eff.2)

/-- JavaScript values that can sit in a persisted `accessory.context` field. -/
inductive JSVal where
  | vBool (b : Bool)
  | vStr (s : String)
  | vNum (n : Int)
  | vNull
  | vUndef
deriving Repr, DecidableEq

/-- JavaScript strict equality against the literal `true`. -/
def strictEqTrue : JSVal → Bool
  | .vBool true => true
  | _ => false

/-- Embedding of the seeding line of the `BlockedDomainAccessory` constructor
(blockedDomainAccessory.ts line 82): `this.isOn = context.isOn === true`. -/
def accessoryInitIsOn (ctxIsOn : JSVal) : Bool :=
  strictEqTrue ctxIsOn

/-- Embedding of the `reduce` in `discoverDevices` (platform.ts lines
130-136) building `nextDNSBlockedDomains`: a record keyed by entry id where
a later duplicate id overwrites an earlier one. -/
def buildDomainMap (denylist : List DenylistEntry) : List (String × Bool) :=
  denylist.foldl (fun acc e => alistSet e.id e.active acc) []

/-- JavaScript `!!record[d]`: the stored boolean, or `false` when absent. -/
def lookupActive (m : List (String × Bool)) (d : String) : Bool :=
  (alistGet d m).getD false

/-- Embedding of the `context.isOn` seeding in `discoverDevices` (platform.ts
lines 115-168): the denylist is empty when the fetch returned no data, and a
configured domain is seeded with `!!nextDNSBlockedDomains[domain]`. -/
def discoverSeedIsOn (outcome : FetchOutcome) (domain : String) : Bool :=
  let data := (getNextDNSProfileData outcome).1
  let denylist :=
    match data with
    | some p => p.denylist
    | none => []
  lookupActive (buildDomainMap denylist) domain

/-- Relevant part of the platform configuration; `none` is a missing field
and the JavaScript truthiness test also rejects the empty string. -/
structure PlatformConfig where
  name : Option String
  apiKey : Option String
  profileId : Option String
  blockedDomains : Option (List String)
deriving Repr, DecidableEq

/-- JavaScript truthiness of an optional string field. -/
def jsTruthyStr : Option String → Bool
  | none => false
  | some s => !(s == "")

/-- Observable result of the `NextDNSPlatform` constructor. -/
structure ConstructorResult where
  logs : List LogEntry
  /-- Whether the `didFinishLaunching` handler (which runs `discoverDevices`
  and hence all fetching, registration and polling) was installed. -/
  discoveryRegistered : Bool
deriving Repr, DecidableEq

/-- Embedding of the `NextDNSPlatform` constructor (platform.ts lines
74-102): when `apiKey` or `profileId` is falsy, log a warning and return
early, installing no launch handler; otherwise install it. -/
def platformConstructor (cfg : PlatformConfig) : ConstructorResult :=
  if !(jsTruthyStr cfg.apiKey) || !(jsTruthyStr cfg.profileId) then
    { logs := [⟨.debug, "config"⟩,
        ⟨.warn, "is not configured correctly. apiKey and profileId are required."⟩]
      discoveryRegistered := false }
  else
    { logs := [⟨.debug, "config"⟩, ⟨.debug, "Finished initializing platform:"⟩]
      discoveryRegistered := true }

/-! Basic lemmas about the JavaScript `Map` embedding. -/

theorem alistGet_set_self {α : Type} (k : String) (v : α) :
    ∀ l : List (String × α), alistGet k (alistSet k v l) = some v
  | [] => by simp [alistGet, alistSet]
  | (k₂, v₂) :: rest => by
      by_cases h : k₂ = k
      · simp [alistSet, h, alistGet]
      · simp [alistSet, h, alistGet, alistGet_set_self k v rest]

theorem alistGet_set_ne {α : Type} {k k₂ : String} (h : k₂ ≠ k) (v : α) :
    ∀ l : List (String × α), alistGet k (alistSet k₂ v l) = alistGet k l
  | [] => by simp [alistGet, alistSet, h]
  | (k₃, v₃) :: rest => by
      by_cases h₃ : k₃ = k₂
      · subst h₃
        simp [alistSet, alistGet, h]
      · simp only [alistSet, if_neg h₃, alistGet]
        by_cases h₄ : k₃ = k
        · simp [h₄]
        · simp [h₄, alistGet_set_ne h v rest]

/-! Lemmas about the uuid encoding. -/

theorem getUUID_inj {a b : String} (h : getUUID a = getUUID b) : a = b := by
  have hd := congrArg String.data h
  simp only [getUUID, String.data_append] at hd
  exact String.ext (List.append_cancel_left hd)

theorem getUUID_ne_adf (d : String) : getUUID d ≠ "adf" := by
  intro h
  have hlen := congrArg String.length h
  rw [getUUID, String.length_append] at hlen
  have h₁ : ("next-dns-blocked-domain:" : String).length = 24 := rfl
  have h₂ : ("adf" : String).length = 3 := rfl
  omega

/-! Frame and update lemmas for one step of the `forEach` body. -/

theorem updateChar_bda (st : PlatformState) (e : DenylistEntry) :
    (updateChar st e).blockedDomainAccessories = st.blockedDomainAccessories := by
  unfold updateChar
  cases alistGet (getUUID e.id) st.accessories with
  | none => rfl
  | some acc =>
      by_cases h : (acc.hasSwitch && acc.charOn != e.active) = true
      · simp [h]
      · simp [h]

theorem adfTouch_bda (st : PlatformState) (e : DenylistEntry) :
    (adfTouch st e).blockedDomainAccessories = st.blockedDomainAccessories := by
  unfold adfTouch
  cases alistGet "adf" st.accessories with
  | none => rfl
  | some acc =>
      by_cases h : acc.hasSwitch = true
      · simp [h]
      · simp [h]

theorem updateChar_acc_ne (st : PlatformState) (e : DenylistEntry) (k : String)
    (h : k ≠ getUUID e.id) :
    alistGet k (updateChar st e).accessories = alistGet k st.accessories := by
  unfold updateChar
  cases alistGet (getUUID e.id) st.accessories with
  | none => rfl
  | some acc =>
      by_cases hg : (acc.hasSwitch && acc.charOn != e.active) = true
      · simp only [hg, if_true]
        exact alistGet_set_ne (fun hk => h hk.symm) _ _
      · simp [hg]

theorem adfTouch_acc_ne (st : PlatformState) (e : DenylistEntry) (k : String)
    (h : k ≠ "adf") :
    alistGet k (adfTouch st e).accessories = alistGet k st.accessories := by
  unfold adfTouch
  cases alistGet "adf" st.accessories with
  | none => rfl
  | some acc =>
      by_cases hg : acc.hasSwitch = true
      · simp only [hg, if_true]
        exact alistGet_set_ne (fun hk => h hk.symm) _ _
      · simp [hg]

theorem applyEntry_bda_ne (st : PlatformState) (e : DenylistEntry) (k : String)
    (h : k ≠ getUUID e.id) :
    alistGet k (applyEntry st e).blockedDomainAccessories =
      alistGet k st.blockedDomainAccessories := by
  simp only [applyEntry, updateChar_bda]
  cases hb : alistGet (getUUID e.id) st.blockedDomainAccessories with
  | none => rw [updateChar_bda]
  | some b =>
      simp only [alistGet_set_ne (fun hk => h hk.symm), adfTouch_bda, updateChar_bda]

theorem applyEntry_bda_self (st : PlatformState) (e : DenylistEntry) (b : Bool)
    (h : alistGet (getUUID e.id) st.blockedDomainAccessories = some b) :
    alistGet (getUUID e.id) (applyEntry st e).blockedDomainAccessories =
      some e.active := by
  simp only [applyEntry, updateChar_bda, h]
  exact alistGet_set_self (getUUID e.id) e.active _

theorem applyEntry_bda_isSome (st : PlatformState) (e : DenylistEntry) (k : String) :
    (alistGet k (applyEntry st e).blockedDomainAccessories).isSome =
      (alistGet k st.blockedDomainAccessories).isSome := by
  by_cases hk : k = getUUID e.id
  · cases hb : alistGet (getUUID e.id) st.blockedDomainAccessories with
    | none =>
        have hres : alistGet k (applyEntry st e).blockedDomainAccessories = none := by
          simp only [applyEntry, updateChar_bda, hb]
          rw [hk]
          exact hb
        rw [hres, hk, hb]
    | some b =>
        rw [hk, applyEntry_bda_self st e b hb, hb]
        rfl
  · rw [applyEntry_bda_ne st e k hk]

theorem applyEntry_acc_ne (st : PlatformState) (e : DenylistEntry) (k : String)
    (h₁ : k ≠ getUUID e.id) (h₂ : k ≠ "adf") :
    alistGet k (applyEntry st e).accessories = alistGet k st.accessories := by
  simp only [applyEntry, updateChar_bda]
  cases hb : alistGet (getUUID e.id) st.blockedDomainAccessories with
  | none => exact updateChar_acc_ne st e k h₁
  | some b =>
      rw [adfTouch_acc_ne _ e k h₂, updateChar_acc_ne st e k h₁]

theorem updateChar_acc_self (st : PlatformState) (e : DenylistEntry)
    (acc : Accessory) (hacc : alistGet (getUUID e.id) st.accessories = some acc)
    (hsw : acc.hasSwitch = true) :
    alistGet (getUUID e.id) (updateChar st e).accessories =
      some ⟨true, e.active⟩ := by
  unfold updateChar
  rw [hacc]
  by_cases hg : (acc.hasSwitch && acc.charOn != e.active) = true
  · simp only [hg, if_true]
    have := alistGet_set_self (getUUID e.id)
      ({ acc with charOn := e.active } : Accessory) st.accessories
    rw [this]
    cases acc with
    | mk hs co => simp only at hsw; simp [hsw]
  · simp only [if_neg hg]
    rw [hacc]
    have hco : acc.charOn = e.active := by
      cases hco : acc.charOn == e.active with
      | true => exact eq_of_beq hco
      | false =>
          exfalso
          apply hg
          simp [hsw, bne, hco]
    cases acc with
    | mk hs co =>
        simp only at hsw hco
        simp [hsw, hco]

theorem applyEntry_acc_self (st : PlatformState) (e : DenylistEntry)
    (acc : Accessory) (hacc : alistGet (getUUID e.id) st.accessories = some acc)
    (hsw : acc.hasSwitch = true) :
    alistGet (getUUID e.id) (applyEntry st e).accessories =
      some ⟨true, e.active⟩ := by
  simp only [applyEntry, updateChar_bda]
  cases hb : alistGet (getUUID e.id) st.blockedDomainAccessories with
  | none => exact updateChar_acc_self st e acc hacc hsw
  | some b =>
      rw [adfTouch_acc_ne _ e _ (getUUID_ne_adf e.id)]
      exact updateChar_acc_self st e acc hacc hsw

theorem updateChar_acc_preserve (st : PlatformState) (e : DenylistEntry)
    (k : String) (acc : Accessory)
    (hacc : alistGet k st.accessories = some acc) :
    ∃ acc₂ : Accessory, alistGet k (updateChar st e).accessories = some acc₂ ∧
      acc₂.hasSwitch = acc.hasSwitch := by
  by_cases hk : k = getUUID e.id
  · subst hk
    unfold updateChar
    rw [hacc]
    by_cases hg : (acc.hasSwitch && acc.charOn != e.active) = true
    · simp only [hg, if_true]
      exact ⟨{ acc with charOn := e.active },
        alistGet_set_self _ _ st.accessories, rfl⟩
    · simp only [if_neg hg]
      exact ⟨acc, hacc, rfl⟩
  · exact ⟨acc, by rw [updateChar_acc_ne st e k hk]; exact hacc, rfl⟩

theorem adfTouch_acc_preserve (st : PlatformState) (e : DenylistEntry)
    (k : String) (acc : Accessory)
    (hacc : alistGet k st.accessories = some acc) :
    ∃ acc₂ : Accessory, alistGet k (adfTouch st e).accessories = some acc₂ ∧
      acc₂.hasSwitch = acc.hasSwitch := by
  by_cases hk : k = "adf"
  · subst hk
    unfold adfTouch
    rw [hacc]
    by_cases hg : acc.hasSwitch = true
    · simp only [hg, if_true]
      exact ⟨{ hasSwitch := true, charOn := e.active },
        alistGet_set_self _ _ st.accessories, rfl⟩
    · simp only [if_neg hg]
      exact ⟨acc, hacc, rfl⟩
  · exact ⟨acc, by rw [adfTouch_acc_ne st e k hk]; exact hacc, rfl⟩

theorem applyEntry_acc_preserve (st : PlatformState) (e : DenylistEntry)
    (k : String) (acc : Accessory)
    (hacc : alistGet k st.accessories = some acc) :
    ∃ acc₂ : Accessory, alistGet k (applyEntry st e).accessories = some acc₂ ∧
      acc₂.hasSwitch = acc.hasSwitch := by
  obtain ⟨acc₂, hacc₂, hsw₂⟩ := updateChar_acc_preserve st e k acc hacc
  simp only [applyEntry, updateChar_bda]
  cases hb : alistGet (getUUID e.id) st.blockedDomainAccessories with
  | none => exact ⟨acc₂, hacc₂, hsw₂⟩
  | some b =>
      obtain ⟨acc₃, hacc₃, hsw₃⟩ :=
        adfTouch_acc_preserve (updateChar st e) e k acc₂ hacc₂
      exact ⟨acc₃, hacc₃, hsw₃.trans hsw₂⟩

/-! Lemmas about the whole `forEach` over a denylist. -/

theorem foldl_applyEntry_preserve (d : String) :
    ∀ (L : List DenylistEntry) (st : PlatformState),
      (∀ e ∈ L, e.id ≠ d) →
      alistGet (getUUID d) (L.foldl applyEntry st).blockedDomainAccessories =
        alistGet (getUUID d) st.blockedDomainAccessories ∧
      alistGet (getUUID d) (L.foldl applyEntry st).accessories =
        alistGet (getUUID d) st.accessories
  | [], st, _ => ⟨rfl, rfl⟩
  | e :: rest, st, h => by
      have hne : getUUID d ≠ getUUID e.id :=
        fun hu => h e (List.mem_cons_self e rest) (getUUID_inj hu).symm
      have hrest := foldl_applyEntry_preserve d rest (applyEntry st e)
        (fun e₂ he₂ => h e₂ (List.mem_cons_of_mem e he₂))
      rw [List.foldl_cons]
      constructor
      · rw [hrest.1, applyEntry_bda_ne st e _ hne]
      · rw [hrest.2, applyEntry_acc_ne st e _ hne (getUUID_ne_adf d)]

theorem foldl_applyEntry_target (d : String) (a : Bool) :
    ∀ (L : List DenylistEntry) (st : PlatformState) (acc : Accessory),
      (⟨d, a⟩ : DenylistEntry) ∈ L →
      (L.map DenylistEntry.id).Nodup →
      (alistGet (getUUID d) st.blockedDomainAccessories).isSome = true →
      alistGet (getUUID d) st.accessories = some acc →
      acc.hasSwitch = true →
      alistGet (getUUID d) (L.foldl applyEntry st).blockedDomainAccessories =
        some a ∧
      alistGet (getUUID d) (L.foldl applyEntry st).accessories =
        some ⟨true, a⟩
  | [], _, _, hmem, _, _, _, _ => absurd hmem (List.not_mem_nil _)
  | e :: rest, st, acc, hmem, hnodup, hbda, hacc, hsw => by
      rw [List.map_cons] at hnodup
      rw [List.foldl_cons]
      rcases List.mem_cons.mp hmem with heq | hmem₂
      · subst heq
        obtain ⟨b, hb⟩ := Option.isSome_iff_exists.mp hbda
        have hbda₂ : alistGet (getUUID d)
            (applyEntry st ⟨d, a⟩).blockedDomainAccessories = some a :=
          applyEntry_bda_self st ⟨d, a⟩ b hb
        have hacc₂ : alistGet (getUUID d)
            (applyEntry st ⟨d, a⟩).accessories = some ⟨true, a⟩ :=
          applyEntry_acc_self st ⟨d, a⟩ acc hacc hsw
        have hd_not : d ∉ rest.map DenylistEntry.id :=
          (List.nodup_cons.mp hnodup).1
        have hrest : ∀ e₂ ∈ rest, e₂.id ≠ d := fun e₂ he₂ hcon =>
          hd_not (hcon ▸ List.mem_map_of_mem DenylistEntry.id he₂)
        have hpres := foldl_applyEntry_preserve d rest (applyEntry st ⟨d, a⟩) hrest
        exact ⟨by rw [hpres.1, hbda₂], by rw [hpres.2, hacc₂]⟩
      · obtain ⟨acc₂, hacc₂, hsw₂⟩ := applyEntry_acc_preserve st e _ acc hacc
        have hbda₂ : (alistGet (getUUID d)
            (applyEntry st e).blockedDomainAccessories).isSome = true := by
          rw [applyEntry_bda_isSome]
          exact hbda
        exact foldl_applyEntry_target d a rest (applyEntry st e) acc₂ hmem₂
          (List.nodup_cons.mp hnodup).2 hbda₂ hacc₂ (hsw₂.trans hsw)

theorem foldl_set_absent (d : String) :
    ∀ (L : List DenylistEntry) (m : List (String × Bool)),
      (∀ e ∈ L, e.id ≠ d) → alistGet d m = none →
      alistGet d (L.foldl (fun acc e => alistSet e.id e.active acc) m) = none
  | [], _, _, hm => hm
  | e :: rest, m, h, hm => by
      rw [List.foldl_cons]
      exact foldl_set_absent d rest _
        (fun e₂ he₂ => h e₂ (List.mem_cons_of_mem e he₂))
        (by rw [alistGet_set_ne (h e (List.mem_cons_self e rest)) e.active m]
            exact hm)

/-! Claim theorems. -/

/-- C1: on a poll tick with a successful fetch, a denylist entry whose domain
has a registered accessory (with a `Switch` service) and a registered
`BlockedDomainAccessory` ends the tick with both the host-visible `On`
characteristic and the in-memory `isOn` equal to the entry's `active` flag;
in particular, for a remote entry with `active = true` the switch's
`getOn` (read through `switchGet`) returns `true` after the tick. -/
theorem syncTick_reconciles_active_switch
    (pid : String) (st : PlatformState) (L : List DenylistEntry)
    (d : String) (a : Bool) (acc : Accessory)
    (hmem : (⟨d, a⟩ : DenylistEntry) ∈ L)
    (hnodup : (L.map DenylistEntry.id).Nodup)
    (hacc : alistGet (getUUID d) st.accessories = some acc)
    (hsw : acc.hasSwitch = true)
    (hbda : (alistGet (getUUID d) st.blockedDomainAccessories).isSome = true) :
    alistGet (getUUID d) (syncTick pid (.ok ⟨L⟩) st).state.accessories =
      some ⟨true, a⟩ ∧
    switchGet (syncTick pid (.ok ⟨L⟩) st).state d = some a := by
  have h := foldl_applyEntry_target d a L st acc hmem hnodup hbda hacc hsw
  exact ⟨h.2, h.1⟩

/-- Witness for C1: one configured domain `reddit.com` whose remote entry is
`active = true`, switch characteristic initially off. -/
theorem syncTick_reconciles_active_switch_witness :
    alistGet (getUUID "reddit.com")
      (syncTick "p1" (.ok ⟨[⟨"reddit.com", true⟩]⟩)
        ⟨[(getUUID "reddit.com", ⟨true, false⟩)],
         [(getUUID "reddit.com", false)]⟩).state.accessories =
      some ⟨true, true⟩ ∧
    switchGet (syncTick "p1" (.ok ⟨[⟨"reddit.com", true⟩]⟩)
        ⟨[(getUUID "reddit.com", ⟨true, false⟩)],
         [(getUUID "reddit.com", false)]⟩).state "reddit.com" = some true :=
  syncTick_reconciles_active_switch "p1"
    ⟨[(getUUID "reddit.com", ⟨true, false⟩)], [(getUUID "reddit.com", false)]⟩
    [⟨"reddit.com", true⟩] "reddit.com" true ⟨true, false⟩
    (List.mem_cons_self _ _) (by decide) rfl rfl rfl

/-- C2: `setOn(v)` stores `v` into the cached boolean before the network
call, so `getOn` echoes `v` immediately; the caller-visible result does not
depend on the remote outcomes of the fired mutator, and the mutator chosen
is `blockDomain` exactly when `v` is `true`. -/
theorem setOn_optimistic_independent
    (pid : String) (acc : SwitchAcc) (v : Bool)
    (pr ps pr₂ ps₂ : CallResult) :
    getOn (setOnObserved pid acc v pr ps).1 = v ∧
    (setOnObserved pid acc v pr ps).1 = (setOnObserved pid acc v pr₂ ps₂).1 ∧
    (setOn acc v).2 =
      (if v then MutCall.block acc.domain else MutCall.unblock acc.domain) :=
  ⟨rfl, rfl, rfl⟩

/-- C3: `blockDomain` always issues the PATCH with `active=true` first, and
issues exactly one fallback POST creating the entry if and only if the PATCH
came back as a non-ok response (not when it succeeded, and not when the
request itself threw). -/
theorem blockDomain_fallback_iff_patch_not_ok
    (pid d : String) (pr ps : CallResult) :
    (blockDomain pid d pr ps).1 =
      (if pr = .respNotOk then [patchReq pid d true, createReq pid d]
       else [patchReq pid d true]) ∧
    (blockDomain pid d pr ps).1.countP (fun r => r.method == .post) =
      (if pr = .respNotOk then 1 else 0) := by
  cases pr <;> cases ps <;> exact ⟨rfl, rfl⟩

/-- C4: the profile fetcher is a total function that folds every failure
mode — network rejection, non-ok HTTP status, malformed payload — into the
same `none` result with a single warning log, and only a well-formed payload
yields data. -/
theorem getNextDNSProfileData_never_throws
    (statusText : String) (p : ProfileData) :
    ∃ m₁ m₂ m₃ : String,
      getNextDNSProfileData .networkError = (none, [⟨.warn, m₁⟩]) ∧
      getNextDNSProfileData (.httpError statusText) = (none, [⟨.warn, m₂⟩]) ∧
      getNextDNSProfileData .malformedPayload = (none, [⟨.warn, m₃⟩]) ∧
      getNextDNSProfileData (.ok p) = (some p, []) :=
  ⟨_, _, _, rfl, rfl, rfl, rfl⟩

/-- C5: on a tick whose fetch fails in any of the three ways, the platform
state is exactly unchanged, and the next tick is still scheduled 60 seconds
out; `syncTick` being a total function, no exception escapes the loop. -/
theorem syncTick_failure_isolation
    (pid : String) (st : PlatformState) (statusText : String) :
    ((syncTick pid .networkError st).state = st ∧
      (syncTick pid .networkError st).nextDelayMs = some 60000) ∧
    ((syncTick pid (.httpError statusText) st).state = st ∧
      (syncTick pid (.httpError statusText) st).nextDelayMs = some 60000) ∧
    ((syncTick pid .malformedPayload st).state = st ∧
      (syncTick pid .malformedPayload st).nextDelayMs = some 60000) :=
  ⟨⟨rfl, rfl⟩, ⟨rfl, rfl⟩, ⟨rfl, rfl⟩⟩

/-- C6: `unblockDomain` issues exactly one PATCH with `active=false` and
nothing else — in particular never a POST — whatever the call outcome, and a
thrown failure is converted into a warning log instead of propagating. -/
theorem unblockDomain_patch_only
    (pid d : String) (r : CallResult) :
    (unblockDomain pid d r).1 = [patchReq pid d false] ∧
    (∀ q ∈ (unblockDomain pid d r).1, q.method = .patch) ∧
    (unblockDomain pid d r).2 =
      (if r = .throws then [⟨.warn, "Failed to unblock domain:"⟩] else []) := by
  cases r <;>
    exact ⟨rfl, fun q hq => by rw [List.eq_of_mem_singleton hq]; rfl, rfl⟩

/-- C7: every `syncTick`, whatever the fetch outcome and state, schedules
the next tick with a fixed 60000 ms `setTimeout`: the loop is
self-perpetuating and never stops rescheduling itself. -/
theorem syncTick_always_reschedules
    (pid : String) (o : FetchOutcome) (st : PlatformState) :
    (syncTick pid o st).nextDelayMs = some 60000 :=
  rfl

/-- C8: a configuration missing `apiKey` or `profileId` makes the
constructor log a warning and install no discovery callback (so no fetch,
no registration and no polling loop ever start); the constructor is a total
function, so the hosting process does not crash. -/
theorem missing_config_skips_discovery
    (cfg : PlatformConfig)
    (h : cfg.apiKey = none ∨ cfg.profileId = none) :
    (platformConstructor cfg).discoveryRegistered = false ∧
    ∃ e ∈ (platformConstructor cfg).logs, e.level = .warn := by
  have hcond : (!(jsTruthyStr cfg.apiKey) || !(jsTruthyStr cfg.profileId)) = true := by
    rcases h with h | h <;> rw [h] <;> simp [jsTruthyStr]
  unfold platformConstructor
  rw [if_pos hcond]
  exact ⟨rfl,
    ⟨⟨.warn, "is not configured correctly. apiKey and profileId are required."⟩,
      by simp, rfl⟩⟩

/-- Witness for C8: a configuration with no `apiKey`. -/
theorem missing_config_skips_discovery_witness :
    (platformConstructor ⟨some "NextDNS", none, some "abcd12", none⟩).discoveryRegistered = false ∧
    ∃ e ∈ (platformConstructor ⟨some "NextDNS", none, some "abcd12", none⟩).logs,
      e.level = .warn :=
  missing_config_skips_discovery ⟨some "NextDNS", none, some "abcd12", none⟩
    (Or.inl rfl)

/-- C9: a successful poll tick leaves a domain absent from the fetched
denylist completely untouched — its `isOn` (read through `switchGet`) and
its accessory entry are unchanged — and the tick issues only the GET, never
a request that could create a remote entry. -/
theorem syncTick_absent_domain_untouched
    (pid : String) (st : PlatformState) (L : List DenylistEntry) (d : String)
    (habsent : ∀ e ∈ L, e.id ≠ d) :
    switchGet (syncTick pid (.ok ⟨L⟩) st).state d = switchGet st d ∧
    alistGet (getUUID d) (syncTick pid (.ok ⟨L⟩) st).state.accessories =
      alistGet (getUUID d) st.accessories ∧
    ∀ r ∈ (syncTick pid (.ok ⟨L⟩) st).requests, r.method = .get := by
  have h := foldl_applyEntry_preserve d L st habsent
  refine ⟨h.1, h.2, ?_⟩
  intro r hr
  rw [List.eq_of_mem_singleton hr]
  rfl

/-- Witness for C9: a tick whose denylist mentions only `x.com` leaves the
configured domain `reddit.com` untouched. -/
theorem syncTick_absent_domain_untouched_witness :
    switchGet (syncTick "p1" (.ok ⟨[⟨"x.com", true⟩]⟩)
        ⟨[], [(getUUID "reddit.com", false)]⟩).state "reddit.com" =
      switchGet ⟨[], [(getUUID "reddit.com", false)]⟩ "reddit.com" ∧
    alistGet (getUUID "reddit.com")
      (syncTick "p1" (.ok ⟨[⟨"x.com", true⟩]⟩)
        ⟨[], [(getUUID "reddit.com", false)]⟩).state.accessories =
      alistGet (getUUID "reddit.com")
        (⟨[], [(getUUID "reddit.com", false)]⟩ : PlatformState).accessories ∧
    ∀ r ∈ (syncTick "p1" (.ok ⟨[⟨"x.com", true⟩]⟩)
        ⟨[], [(getUUID "reddit.com", false)]⟩).requests, r.method = .get :=
  syncTick_absent_domain_untouched "p1"
    ⟨[], [(getUUID "reddit.com", false)]⟩ [⟨"x.com", true⟩] "reddit.com"
    (by decide)

/-- C10: a configured domain with no matching entry in the fetched denylist
(also when the fetch failed, making the denylist empty) is seeded with
`isOn = false` at discovery, and the `BlockedDomainAccessory` constructor
turns any persisted `context.isOn` other than the boolean `true` — junk
included — into `isOn = false`. -/
theorem discovery_seeds_missing_domains_off
    (o : FetchOutcome) (d : String) (v : JSVal)
    (habsent : ∀ p, (getNextDNSProfileData o).1 = some p →
      ∀ e ∈ p.denylist, e.id ≠ d)
    (hv : v ≠ .vBool true) :
    discoverSeedIsOn o d = false ∧
    accessoryInitIsOn (.vBool (discoverSeedIsOn o d)) = false ∧
    accessoryInitIsOn v = false := by
  have hseed : discoverSeedIsOn o d = false := by
    cases o with
    | ok p =>
        have hp := habsent p rfl
        unfold discoverSeedIsOn
        simp only [getNextDNSProfileData]
        unfold lookupActive buildDomainMap
        rw [foldl_set_absent d p.denylist [] hp rfl]
        rfl
    | networkError => rfl
    | httpError s => rfl
    | malformedPayload => rfl
  refine ⟨hseed, ?_, ?_⟩
  · rw [hseed]
    rfl
  · cases v with
    | vBool b =>
        cases b with
        | true => exact absurd rfl hv
        | false => rfl
    | vStr s => rfl
    | vNum n => rfl
    | vNull => rfl
    | vUndef => rfl

/-- Witness for C10: a failed fetch seeds `reddit.com` off, and the junk
persisted value `"junk"` also yields `isOn = false`. -/
theorem discovery_seeds_missing_domains_off_witness :
    discoverSeedIsOn (.httpError "Not Found") "reddit.com" = false ∧
    accessoryInitIsOn
      (.vBool (discoverSeedIsOn (.httpError "Not Found") "reddit.com")) = false ∧
    accessoryInitIsOn (.vStr "junk") = false :=
  discovery_seeds_missing_domains_off (.httpError "Not Found") "reddit.com"
    (.vStr "junk") (fun p hp => Option.noConfusion hp) (by decide)

end NextDNS
